import Mathlib

/-!
Verification of the termail plugin notification protocol.

Source embedding: `src/plugins/rocketship/rocketship.py` (the rocketship
plugin, the only protocol code present in the repository). Host-side
components (EventModel dispatch, InvocationRegistry, ErrorBridge) are not
present under `src/`; they are modelled from the specification and marked
as such in their doc comments.
-/

namespace Termail

/-- A dynamically typed Python value crossing the plugin boundary: the
rocketship plugin returns a `bool` from `on_notify` and a `str` from
`invoke`, so both shapes are represented. -/
inductive PyVal where
  | str (s : String)
  | bool (b : Bool)
deriving DecidableEq

/-- Whether a Python value is a string (an event payload rather than a flag). -/
def PyVal.isStr : PyVal → Bool
  | PyVal.str _ => true
  | PyVal.bool _ => false

/-- One call to the host import `termail_host.invoke`, as issued by the
plugin: the invocation id and the event string passed to the host. -/
structure HostCall where
  invocation_id : String
  event : String
deriving DecidableEq

/-- The observable outcome of running one plugin method: its return value
together with the ordered list of host calls it issued. -/
structure MethodRun (α : Type) where
  ret : α
  calls : List HostCall
deriving DecidableEq

/-- Embeds line 31 of `rocketship.py`: `event = event + "🚀"`. The appended
string is exactly U+1F680, with no space before it. -/
def rocketship_transform (event : String) : String :=
  event ++ "🚀"

namespace WitWorld

/-- Embeds `WitWorld.invoke` of `rocketship.py`: appends the rocket to the
event, calls `termail_host.invoke(invocation_id, event)` (whose response,
supplied here by the `oracle`, the code discards), and returns the new
event string. -/
def invoke (oracle : Nat → String) (invocation_id event : String) :
    MethodRun String :=
  let event := rocketship_transform event
  let _response := oracle 0
  { ret := event, calls := [{ invocation_id := invocation_id, event := event }] }

/-- Embeds `WitWorld.on_notify` of `rocketship.py`: calls `self.invoke`,
discards its return value, and returns the Python boolean `True`. -/
def on_notify (oracle : Nat → String) (invocation_id event : String) :
    MethodRun PyVal :=
  let r := invoke oracle invocation_id event
  { ret := PyVal.bool true, calls := r.calls }

end WitWorld

/-- Modelled from the spec: the `Event` wire shape `{ tag, payload }` of
§3/§6; no host-side event type exists under `src/`. -/
structure Event where
  tag : String
  payload : String
deriving DecidableEq

/-- Modelled from the spec: the error taxonomy of §7; no host-side error
type exists under `src/`. -/
inductive ErrKind where
  | DecodeError
  | ProtocolViolation
  | UnknownInvocation
  | HostRejected
  | Timeout
  | PluginFault
deriving DecidableEq

/-- Modelled from the spec: a variant-scoped plugin of §4.1/§4.4 — a
recognized tag together with a payload transform; no tag-matching plugin
exists under `src/`. -/
structure VariantPlugin where
  recognized : String
  transform : String → String

/-- Modelled from the spec: applying a variant-scoped plugin (§4.1): the
transform receives only the payload of a matched variant and produces a new
payload of the same variant; an unrecognized variant passes through
unchanged. -/
def VariantPlugin.apply (p : VariantPlugin) (e : Event) : Event :=
  if e.tag = p.recognized then { e with payload := p.transform e.payload } else e

/-- The rocketship plugin seen as a variant-scoped plugin: it matches
`BeforeSend` and applies the payload transform taken from the source
(`rocketship_transform`). -/
def rocketshipPlugin : VariantPlugin :=
  { recognized := "BeforeSend", transform := rocketship_transform }

/-- Modelled from the spec: dispatch steps 3–4 of §4.4 — run the plugin on
the event and enforce the tag invariant, failing with `ProtocolViolation`
if the plugin changed the variant tag; no host dispatch loop exists under
`src/`. -/
def dispatchOne (p : Event → Event) (e : Event) : Except ErrKind Event :=
  let e' := p e
  if e'.tag = e.tag then Except.ok e' else Except.error ErrKind.ProtocolViolation

/-- Modelled from the spec: the chain dispatch of §4.4 — plugins applied in
order, each receiving the previous plugin's output event; no host dispatch
loop exists under `src/`. -/
def dispatchChain : List (Event → Event) → Event → Except ErrKind Event
  | [], e => Except.ok e
  | p :: ps, e =>
    match dispatchOne p e with
    | Except.ok e' => dispatchChain ps e'
    | Except.error k => Except.error k

/-- Modelled from the spec: the dispatch state of a registry entry (§4.2);
no host-side registry exists under `src/`. -/
inductive Status where
  | Pending
  | Completed
  | Failed
  | TimedOut
deriving DecidableEq

/-- Modelled from the spec: the InvocationRegistry of §4.2 — a monotonic
counter for fresh ids and a map from id to dispatch status; no host-side
registry exists under `src/`. -/
structure Registry where
  next : Nat
  status : Nat → Option Status

/-- A registry is well-formed when every id at or above the counter is
unallocated. -/
def Registry.Inv (r : Registry) : Prop :=
  ∀ id, r.next ≤ id → r.status id = none

/-- Modelled from the spec: `begin(event) -> InvocationId` (§4.2) —
allocates a fresh id from the counter, inserts a Pending entry, returns
the id. -/
def Registry.begin (r : Registry) : Nat × Registry :=
  (r.next,
   { next := r.next + 1,
     status := fun j => if j = r.next then some Status.Pending else r.status j })

/-- Modelled from the spec: `resolve(id, result)` (§4.2) — fails with
`UnknownInvocation` unless `id` is Pending; otherwise transitions it to
Completed or Failed. -/
def Registry.resolve (r : Registry) (id : Nat) (failed : Bool) :
    Except ErrKind Registry :=
  match r.status id with
  | some Status.Pending =>
    Except.ok
      { next := r.next,
        status := fun j =>
          if j = id then some (if failed then Status.Failed else Status.Completed)
          else r.status j }
  | _ => Except.error ErrKind.UnknownInvocation

/-- Modelled from the spec: `expire(id)` (§4.2) — transitions a Pending
entry to TimedOut, failing with `UnknownInvocation` otherwise. -/
def Registry.expire (r : Registry) (id : Nat) : Except ErrKind Registry :=
  match r.status id with
  | some Status.Pending =>
    Except.ok
      { next := r.next,
        status := fun j => if j = id then some Status.TimedOut else r.status j }
  | _ => Except.error ErrKind.UnknownInvocation

/-- Modelled from the spec: `callback(id, message) -> response` (§4.2) —
fails with `UnknownInvocation` unless `id` is Pending; otherwise forwards
the message to the host callback handler. -/
def Registry.callback (r : Registry) (id : Nat) (message : String)
    (handler : String → String) : Except ErrKind String :=
  match r.status id with
  | some Status.Pending => Except.ok (handler message)
  | _ => Except.error ErrKind.UnknownInvocation

/-- An abstract registry operation, for stating trace properties of the
id lifecycle. -/
inductive Op where
  | beginOp
  | resolveOp (id : Nat) (failed : Bool)
  | expireOp (id : Nat)
  | callbackOp (id : Nat)

/-- One registry operation as a state step, emitting the id allocated by
`begin` when there is one; failed operations leave the state unchanged. -/
def Registry.step (r : Registry) : Op → Registry × Option Nat
  | Op.beginOp => ((Registry.begin r).2, some (Registry.begin r).1)
  | Op.resolveOp id f =>
    (match Registry.resolve r id f with
     | Except.ok r' => r'
     | Except.error _ => r, none)
  | Op.expireOp id =>
    (match Registry.expire r id with
     | Except.ok r' => r'
     | Except.error _ => r, none)
  | Op.callbackOp _ => (r, none)

/-- Running a sequence of registry operations, collecting in order every id
that `begin` returned. -/
def Registry.run (r : Registry) : List Op → Registry × List Nat
  | [] => (r, [])
  | op :: rest =>
    let s := Registry.step r op
    let t := Registry.run s.1 rest
    (t.1, s.2.toList ++ t.2)

/-- Modelled from the spec: a plugin-side fault as seen by the ErrorBridge
(§4.5): a category name and an optional message text; no ErrorBridge code
exists under `src/`. -/
structure Fault where
  category : String
  message : Option String
deriving DecidableEq

/-- Modelled from the spec: the stable error wire shape `{ kind, detail }`
of §6; no ErrorBridge code exists under `src/`. -/
structure NormError where
  kind : String
  detail : String
deriving DecidableEq

/-- Modelled from the spec: the ErrorBridge normalization rule of §4.5 —
a fault with no message text becomes `{ kind := category, detail := "" }`;
otherwise the detail is `"<category>: <message>"`. -/
def ErrorBridge.normalize (f : Fault) : NormError :=
  match f.message with
  | none => { kind := f.category, detail := "" }
  | some m => { kind := f.category, detail := f.category ++ ": " ++ m }

/-- A concrete registry holding one Pending invocation (id 0), counter at 1. -/
def rW : Registry :=
  { next := 1, status := fun id => if id = 0 then some Status.Pending else none }

/-- The registry obtained by resolving invocation 0 of `rW` as Completed. -/
def rW2 : Registry :=
  { next := 1,
    status := fun j => if j = 0 then some Status.Completed else rW.status j }

/-- An id is retired in a registry when it is allocated but no longer
Pending: it has been resolved (Completed/Failed) or expired (TimedOut). -/
def Registry.Retired (r : Registry) (id : Nat) : Prop :=
  ∃ s, r.status id = some s ∧ s ≠ Status.Pending

theorem Registry.resolve_next {r : Registry} {id : Nat} {f : Bool} {r' : Registry}
    (h : Registry.resolve r id f = Except.ok r') : r'.next = r.next := by
  unfold Registry.resolve at h
  split at h
  · cases h; rfl
  · cases h

theorem Registry.expire_next {r : Registry} {id : Nat} {r' : Registry}
    (h : Registry.expire r id = Except.ok r') : r'.next = r.next := by
  unfold Registry.expire at h
  split at h
  · cases h; rfl
  · cases h

theorem Registry.step_next_le (r : Registry) (op : Op) :
    r.next ≤ (Registry.step r op).1.next := by
  cases op with
  | beginOp => exact Nat.le_succ _
  | resolveOp id f =>
    simp only [Registry.step]
    cases h : Registry.resolve r id f with
    | ok r' => simp [Registry.resolve_next h]
    | error _ => simp
  | expireOp id =>
    simp only [Registry.step]
    cases h : Registry.expire r id with
    | ok r' => simp [Registry.expire_next h]
    | error _ => simp
  | callbackOp id => exact Nat.le_refl _

theorem Registry.run_lower (r : Registry) (ops : List Op) :
    ∀ x ∈ (Registry.run r ops).2, r.next ≤ x := by
  induction ops generalizing r with
  | nil => intro x hx; simp [Registry.run] at hx
  | cons op rest ih =>
    intro x hx
    simp only [Registry.run, List.mem_append] at hx
    rcases hx with hx | hx
    · cases op with
      | beginOp =>
        simp [Registry.step, Option.toList, List.mem_singleton] at hx
        simp [hx, Registry.begin]
      | resolveOp id f => simp [Registry.step, Option.toList] at hx
      | expireOp id => simp [Registry.step, Option.toList] at hx
      | callbackOp id => simp [Registry.step, Option.toList] at hx
    · exact Nat.le_trans (Registry.step_next_le r op) (ih _ _ hx)

theorem Registry.run_pairwise (r : Registry) (ops : List Op) :
    (Registry.run r ops).2.Pairwise (· < ·) := by
  induction ops generalizing r with
  | nil => simp [Registry.run]
  | cons op rest ih =>
    simp only [Registry.run]
    rw [List.pairwise_append]
    refine ⟨?_, ih _, ?_⟩
    · cases op <;> simp [Registry.step, Option.toList]
    · intro a ha b hb
      cases op with
      | beginOp =>
        simp [Registry.step, Registry.begin, Option.toList, List.mem_singleton] at ha
        have hb' := Registry.run_lower _ rest b hb
        simp only [Registry.step, Registry.begin] at hb'
        omega
      | resolveOp id f => simp [Registry.step, Option.toList] at ha
      | expireOp id => simp [Registry.step, Option.toList] at ha
      | callbackOp id => simp [Registry.step, Option.toList] at ha

theorem Registry.run_nodup (r : Registry) (ops : List Op) :
    (Registry.run r ops).2.Nodup :=
  (Registry.run_pairwise r ops).imp Nat.ne_of_lt

theorem Registry.resolve_eq {r : Registry} {id : Nat} {f : Bool} {r' : Registry}
    (hr : Registry.resolve r id f = Except.ok r') :
    r.status id = some Status.Pending ∧ r'.next = r.next ∧
    r'.status = fun j =>
      if j = id then some (if f then Status.Failed else Status.Completed)
      else r.status j := by
  unfold Registry.resolve at hr
  split at hr
  · rename_i hp
    injection hr with h2
    subst h2
    exact ⟨hp, rfl, rfl⟩
  · cases hr

theorem Registry.expire_eq {r : Registry} {id : Nat} {r' : Registry}
    (hr : Registry.expire r id = Except.ok r') :
    r.status id = some Status.Pending ∧ r'.next = r.next ∧
    r'.status = fun j => if j = id then some Status.TimedOut else r.status j := by
  unfold Registry.expire at hr
  split at hr
  · rename_i hp
    injection hr with h2
    subst h2
    exact ⟨hp, rfl, rfl⟩
  · cases hr

theorem Registry.resolve_retired {r : Registry} {id : Nat} {f : Bool} {r' : Registry}
    (hr : Registry.resolve r id f = Except.ok r') : Registry.Retired r' id := by
  obtain ⟨-, -, hst⟩ := Registry.resolve_eq hr
  refine ⟨if f then Status.Failed else Status.Completed, ?_, ?_⟩
  · rw [hst]; simp
  · cases f <;> decide

theorem Registry.expire_retired {r : Registry} {id : Nat} {r' : Registry}
    (hr : Registry.expire r id = Except.ok r') : Registry.Retired r' id := by
  obtain ⟨-, -, hst⟩ := Registry.expire_eq hr
  exact ⟨Status.TimedOut, by rw [hst]; simp, by decide⟩

theorem Registry.resolve_inv {r : Registry} {id : Nat} {f : Bool} {r' : Registry}
    (hr : Registry.resolve r id f = Except.ok r') (h : r.Inv) : r'.Inv := by
  obtain ⟨hp, hn, hst⟩ := Registry.resolve_eq hr
  intro j hj
  rw [hn] at hj
  have hj0 : r.status j = none := h j hj
  have hne : j ≠ id := by
    intro he
    subst he
    rw [hj0] at hp
    cases hp
  rw [hst]
  simp [hne, hj0]

theorem Registry.expire_inv {r : Registry} {id : Nat} {r' : Registry}
    (hr : Registry.expire r id = Except.ok r') (h : r.Inv) : r'.Inv := by
  obtain ⟨hp, hn, hst⟩ := Registry.expire_eq hr
  intro j hj
  rw [hn] at hj
  have hj0 : r.status j = none := h j hj
  have hne : j ≠ id := by
    intro he
    subst he
    rw [hj0] at hp
    cases hp
  rw [hst]
  simp [hne, hj0]

theorem Registry.begin_inv {r : Registry} (h : r.Inv) : (Registry.begin r).2.Inv := by
  intro j hj
  simp only [Registry.begin] at hj ⊢
  have hne : j ≠ r.next := by omega
  rw [if_neg hne]
  exact h j (by omega)

theorem Registry.begin_retired {r : Registry} {id : Nat} (h : r.Inv)
    (hret : Registry.Retired r id) : Registry.Retired (Registry.begin r).2 id := by
  obtain ⟨s, hs, hsp⟩ := hret
  refine ⟨s, ?_, hsp⟩
  simp only [Registry.begin]
  have hne : id ≠ r.next := by
    intro he
    subst he
    rw [h r.next (Nat.le_refl _)] at hs
    cases hs
  rw [if_neg hne]
  exact hs

theorem Registry.resolve_retired_pres {r : Registry} {id id' : Nat} {f : Bool}
    {r' : Registry} (hr : Registry.resolve r id' f = Except.ok r')
    (hret : Registry.Retired r id) : Registry.Retired r' id := by
  obtain ⟨hp, -, hst⟩ := Registry.resolve_eq hr
  obtain ⟨s, hs, hsp⟩ := hret
  have hne : id ≠ id' := by
    intro he
    subst he
    rw [hs] at hp
    injection hp with h2
    exact hsp h2
  refine ⟨s, ?_, hsp⟩
  rw [hst]
  simp [hne, hs]

theorem Registry.expire_retired_pres {r : Registry} {id id' : Nat} {r' : Registry}
    (hr : Registry.expire r id' = Except.ok r')
    (hret : Registry.Retired r id) : Registry.Retired r' id := by
  obtain ⟨hp, -, hst⟩ := Registry.expire_eq hr
  obtain ⟨s, hs, hsp⟩ := hret
  have hne : id ≠ id' := by
    intro he
    subst he
    rw [hs] at hp
    injection hp with h2
    exact hsp h2
  refine ⟨s, ?_, hsp⟩
  rw [hst]
  simp [hne, hs]

theorem Registry.step_pres {r : Registry} {id : Nat} (op : Op) (h : r.Inv)
    (hret : Registry.Retired r id) :
    (Registry.step r op).1.Inv ∧ Registry.Retired (Registry.step r op).1 id := by
  cases op with
  | beginOp => exact ⟨Registry.begin_inv h, Registry.begin_retired h hret⟩
  | resolveOp id' f =>
    simp only [Registry.step]
    cases hr : Registry.resolve r id' f with
    | ok r' => exact ⟨Registry.resolve_inv hr h, Registry.resolve_retired_pres hr hret⟩
    | error e => exact ⟨h, hret⟩
  | expireOp id' =>
    simp only [Registry.step]
    cases hr : Registry.expire r id' with
    | ok r' => exact ⟨Registry.expire_inv hr h, Registry.expire_retired_pres hr hret⟩
    | error e => exact ⟨h, hret⟩
  | callbackOp id' => exact ⟨h, hret⟩

theorem Registry.run_pres (r : Registry) (ops : List Op) (id : Nat) (h : r.Inv)
    (hret : Registry.Retired r id) : Registry.Retired (Registry.run r ops).1 id := by
  induction ops generalizing r with
  | nil => exact hret
  | cons op rest ih =>
    simp only [Registry.run]
    obtain ⟨h1, h2⟩ := Registry.step_pres op h hret
    exact ih _ h1 h2

theorem Registry.retired_callback {r : Registry} {id : Nat}
    (hret : Registry.Retired r id) (message : String) (handler : String → String) :
    Registry.callback r id message handler = Except.error ErrKind.UnknownInvocation := by
  obtain ⟨s, hs, hsp⟩ := hret
  unfold Registry.callback
  rw [hs]
  cases s with
  | Pending => exact absurd rfl hsp
  | Completed => rfl
  | Failed => rfl
  | TimedOut => rfl

theorem rW_inv : rW.Inv := by
  intro id h
  have hne : id ≠ 0 := by simp [rW] at h ⊢; omega
  simp [rW, hne]

/-- C1 counterexample: at the concrete invocation ("inv-1", "Hello"), the
rocketship plugin's on_notify returns the Python boolean True — a value
that is not a string event — refuting the claim that the value returned by
a plugin's on_notify is an event rather than a boolean success flag. -/
theorem on_notify_returns_bool_cex :
    (WitWorld.on_notify (fun _ => "") "inv-1" "Hello").ret = PyVal.bool true ∧
    ((WitWorld.on_notify (fun _ => "") "inv-1" "Hello").ret).isStr = false :=
  ⟨rfl, rfl⟩

/-- C1 (amended): for every invocation, the rocketship plugin's on_notify
returns the boolean flag True rather than a transformed event; the
transformed event is delivered to the host through the single
termail_host.invoke callback instead of the return value. -/
theorem on_notify_returns_flag (oracle : Nat → String)
    (invocation_id event : String) :
    (WitWorld.on_notify oracle invocation_id event).ret = PyVal.bool true ∧
    (WitWorld.on_notify oracle invocation_id event).calls =
      [{ invocation_id := invocation_id, event := rocketship_transform event }] :=
  ⟨rfl, rfl⟩

/-- C2 counterexample: dispatching Event{tag:"BeforeSend", payload:"Hello"}
through the rocketship plugin yields payload "Hello🚀" (no space: the
source appends exactly "🚀"), not the claimed "Hello 🚀". -/
theorem rocketship_hello_cex :
    dispatchOne (VariantPlugin.apply rocketshipPlugin)
        { tag := "BeforeSend", payload := "Hello" } =
      Except.ok { tag := "BeforeSend", payload := "Hello🚀" } ∧
    dispatchOne (VariantPlugin.apply rocketshipPlugin)
        { tag := "BeforeSend", payload := "Hello" } ≠
      Except.ok { tag := "BeforeSend", payload := "Hello 🚀" } := by
  refine ⟨rfl, ?_⟩
  intro h
  rw [show dispatchOne (VariantPlugin.apply rocketshipPlugin)
        { tag := "BeforeSend", payload := "Hello" } =
      Except.ok { tag := "BeforeSend", payload := "Hello🚀" } from rfl] at h
  simp only [Except.ok.injEq, Event.mk.injEq] at h
  exact absurd h.2 (by decide)

/-- C2 (amended): dispatching Event{tag:"BeforeSend", payload:"Hello"}
through the rocketship plugin produces Event{tag:"BeforeSend",
payload:"Hello🚀"}: the rocketship transform appends "🚀" with no
separating space. -/
theorem rocketship_hello_dispatch :
    dispatchOne (VariantPlugin.apply rocketshipPlugin)
        { tag := "BeforeSend", payload := "Hello" } =
      Except.ok { tag := "BeforeSend", payload := "Hello🚀" } :=
  rfl

/-- C3: a well-formed event whose tag a variant-scoped plugin does not
recognize is returned unchanged by dispatch (pass-through invariant). -/
theorem unrecognized_passthrough (p : VariantPlugin) (e : Event)
    (h : e.tag ≠ p.recognized) :
    dispatchOne (VariantPlugin.apply p) e = Except.ok e := by
  simp [dispatchOne, VariantPlugin.apply, h]

theorem unrecognized_passthrough_witness :
    dispatchOne (VariantPlugin.apply rocketshipPlugin)
        { tag := "AfterSend", payload := "Hi" } =
      Except.ok { tag := "AfterSend", payload := "Hi" } :=
  unrecognized_passthrough rocketshipPlugin
    { tag := "AfterSend", payload := "Hi" } (by decide)

/-- C4: a recognized-variant transform preserves the event's tag, and a
dispatch in which the plugin returns an event with a different tag fails
with ProtocolViolation instead of continuing with the result. -/
theorem tag_invariant_enforced (p : VariantPlugin) (q : Event → Event)
    (e : Event) (h : (q e).tag ≠ e.tag) :
    (VariantPlugin.apply p e).tag = e.tag ∧
    dispatchOne q e = Except.error ErrKind.ProtocolViolation := by
  constructor
  · unfold VariantPlugin.apply
    split <;> rfl
  · simp [dispatchOne, h]

theorem tag_invariant_enforced_witness :
    (VariantPlugin.apply rocketshipPlugin
        { tag := "BeforeSend", payload := "Hello" }).tag =
      ({ tag := "BeforeSend", payload := "Hello" } : Event).tag ∧
    dispatchOne (fun _ => { tag := "Mutated", payload := "" })
        { tag := "BeforeSend", payload := "Hello" } =
      Except.error ErrKind.ProtocolViolation :=
  tag_invariant_enforced rocketshipPlugin
    (fun _ => { tag := "Mutated", payload := "" })
    { tag := "BeforeSend", payload := "Hello" } (by decide)

/-- C5: in a well-formed registry, the id returned by begin differs from
every currently Pending id; ids returned by begin over any operation
sequence are pairwise distinct (never reused); and after a successful
resolve or expire of an id, every subsequent callback with that id —
after any further sequence of registry operations — fails with
UnknownInvocation. -/
theorem registry_lifecycle (r : Registry) (ops more : List Op) (message : String)
    (handler : String → String) (hinv : r.Inv) :
    (∀ id, r.status id = some Status.Pending → (Registry.begin r).1 ≠ id) ∧
    (Registry.run r ops).2.Nodup ∧
    (∀ id f r', Registry.resolve r id f = Except.ok r' →
      Registry.callback (Registry.run r' more).1 id message handler =
        Except.error ErrKind.UnknownInvocation) ∧
    (∀ id r', Registry.expire r id = Except.ok r' →
      Registry.callback (Registry.run r' more).1 id message handler =
        Except.error ErrKind.UnknownInvocation) := by
  refine ⟨?_, Registry.run_nodup r ops, ?_, ?_⟩
  · intro id hpend heq
    simp only [Registry.begin] at heq
    have hn : r.status id = none := hinv id (by omega)
    rw [hn] at hpend
    cases hpend
  · intro id f r' h
    exact Registry.retired_callback
      (Registry.run_pres r' more id (Registry.resolve_inv h hinv)
        (Registry.resolve_retired h)) message handler
  · intro id r' h
    exact Registry.retired_callback
      (Registry.run_pres r' more id (Registry.expire_inv h hinv)
        (Registry.expire_retired h)) message handler

theorem registry_lifecycle_witness :
    (Registry.begin rW).1 ≠ 0 ∧
    (Registry.run rW [Op.beginOp, Op.beginOp]).2.Nodup ∧
    Registry.callback (Registry.run rW2 [Op.beginOp]).1 0 "ping" (fun s => s) =
      Except.error ErrKind.UnknownInvocation := by
  have h := registry_lifecycle rW [Op.beginOp, Op.beginOp] [Op.beginOp] "ping"
    (fun s => s) rW_inv
  exact ⟨h.1 0 rfl, h.2.1, h.2.2.1 0 false rW2 rfl⟩

/-- C6: the ErrorBridge normalization of a plugin-side fault: a fault with
no message text yields kind equal to the fault's category and empty
detail; a fault with a message yields detail "<category>: <message>". -/
theorem errorbridge_normalize (f : Fault) :
    (f.message = none →
      (ErrorBridge.normalize f).kind = f.category ∧
      (ErrorBridge.normalize f).detail = "") ∧
    (∀ m, f.message = some m →
      (ErrorBridge.normalize f).detail = f.category ++ ": " ++ m) := by
  constructor
  · intro h
    simp [ErrorBridge.normalize, h]
  · intro m h
    simp [ErrorBridge.normalize, h]

theorem errorbridge_normalize_witness :
    ((ErrorBridge.normalize { category := "PluginFault", message := none }).kind =
        "PluginFault" ∧
      (ErrorBridge.normalize { category := "PluginFault", message := none }).detail =
        "") ∧
    (ErrorBridge.normalize { category := "PluginFault", message := some "boom" }).detail =
      "PluginFault" ++ ": " ++ "boom" :=
  ⟨(errorbridge_normalize { category := "PluginFault", message := none }).1 rfl,
   (errorbridge_normalize { category := "PluginFault", message := some "boom" }).2
     "boom" rfl⟩

/-- C7: dispatching any well-formed event through an empty plugin chain
returns the event unchanged: the empty chain is the identity transform. -/
theorem empty_chain_identity (e : Event) : dispatchChain [] e = Except.ok e :=
  rfl

/-- C8: the rocketship plugin's on_notify is deterministic — its result and
its callback sequence agree across any two runs with the same
invocation_id and event; indeed they are independent even of the host's
callback responses, because the code discards every response. -/
theorem on_notify_deterministic (o₁ o₂ : Nat → String)
    (invocation_id event : String) :
    WitWorld.on_notify o₁ invocation_id event =
      WitWorld.on_notify o₂ invocation_id event :=
  rfl

/-- C9: every run of the rocketship plugin's on_notify issues exactly one
host callback, bearing the same invocation_id and the payload
event ++ "🚀", and the return value carries no event (the result of
self.invoke is discarded), so the transformed event reaches the host only
through that callback. -/
theorem on_notify_single_callback (oracle : Nat → String)
    (invocation_id event : String) :
    (WitWorld.on_notify oracle invocation_id event).calls =
      [{ invocation_id := invocation_id, event := event ++ "🚀" }] ∧
    ((WitWorld.on_notify oracle invocation_id event).ret).isStr = false :=
  ⟨rfl, rfl⟩

/-- C10: the rocketship plugin's on_notify returns True for every input,
regardless of the event's content; it never returns False and never
signals an error through its return value. -/
theorem on_notify_returns_true (oracle : Nat → String)
    (invocation_id event : String) :
    (WitWorld.on_notify oracle invocation_id event).ret = PyVal.bool true :=
  rfl

end Termail
